import Mathlib

/-!
Verification of the element-fusion geometry and agent-orchestration logic of the
index browser agent, against a shallow embedding of its TypeScript sources.

Conventions of the embedding:
* JavaScript numbers are modelled as exact rationals; every concrete input used
  by a theorem keeps the arithmetic far from any rounding boundary, so the
  comparisons agree with IEEE doubles.
* `Array.prototype.sort` is modelled by `List.insertionSort`, which realises the
  same contract (a stable sort for the comparator's total preorder).
* A thrown JavaScript exception is modelled as `Except.error`; a function that
  catches all exceptions is total and returns the plain value.
* External collaborators (the sharp image library, the LLM provider, the
  browser) enter as explicit oracle parameters.
-/

namespace IndexAgent

/-! ## Geometry: src/IndexTs/src/browser/utils.ts -/

/-- Rectangle, as in `RectSchema` of src/IndexTs/src/browser/models.ts:
six redundant fields, all plain numbers. -/
structure Rect where
  left : ℚ
  top : ℚ
  right : ℚ
  bottom : ℚ
  width : ℚ
  height : ℚ
deriving DecidableEq, Repr

/-- The documented invariant of `Rect`: the corner fields are ordered and the
width/height fields agree with them. -/
def RectInv (r : Rect) : Prop :=
  r.left ≤ r.right ∧ r.top ≤ r.bottom ∧
  r.width = r.right - r.left ∧ r.height = r.bottom - r.top

instance : DecidablePred RectInv := fun r => by
  unfold RectInv; infer_instance

/-- `calculateIou` of src/IndexTs/src/browser/utils.ts (lines 200-216):
intersection over union, rejecting an empty intersection and guarding the
division by a zero union area. -/
def calculateIou (rect1 rect2 : Rect) : ℚ :=
  let intersectLeft := max rect1.left rect2.left
  let intersectTop := max rect1.top rect2.top
  let intersectRight := min rect1.right rect2.right
  let intersectBottom := min rect1.bottom rect2.bottom
  if intersectRight < intersectLeft ∨ intersectBottom < intersectTop then 0
  else
    let intersectArea := (intersectRight - intersectLeft) * (intersectBottom - intersectTop)
    let area1 := rect1.width * rect1.height
    let area2 := rect2.width * rect2.height
    let unionArea := area1 + area2 - intersectArea
    if 0 < unionArea then intersectArea / unionArea else 0

/-- `isFullyContained` of src/IndexTs/src/browser/utils.ts (lines 221-228):
does `rect1` lie inside `rect2` (non-strict on all four edges). -/
def isFullyContained (rect1 rect2 : Rect) : Bool :=
  decide (rect2.left ≤ rect1.left ∧ rect1.right ≤ rect2.right ∧
    rect2.top ≤ rect1.top ∧ rect1.bottom ≤ rect2.bottom)

/-- The no-intersection test of `calculateIou`: the intersection is rejected
when right is less than left or bottom is less than top after intersecting. -/
def rectsDisjoint (a b : Rect) : Prop :=
  min a.right b.right < max a.left b.left ∨ min a.bottom b.bottom < max a.top b.top

/-- The union area that `calculateIou` divides by. -/
def iouUnionArea (a b : Rect) : ℚ :=
  a.width * a.height + b.width * b.height -
    (min a.right b.right - max a.left b.left) * (min a.bottom b.bottom - max a.top b.top)

theorem calculateIou_comm (a b : Rect) : calculateIou a b = calculateIou b a := by
  unfold calculateIou
  rw [max_comm a.left, max_comm a.top, min_comm a.right, min_comm a.bottom]
  ring_nf

theorem calculateIou_of_disjoint (a b : Rect) (h : rectsDisjoint a b) :
    calculateIou a b = 0 := by
  unfold rectsDisjoint at h
  simp only [calculateIou]
  rw [if_pos h]

theorem calculateIou_of_unionArea_eq_zero (a b : Rect) (h : iouUnionArea a b = 0) :
    calculateIou a b = 0 := by
  unfold iouUnionArea at h
  simp only [calculateIou]
  by_cases hd : min a.right b.right < max a.left b.left ∨
      min a.bottom b.bottom < max a.top b.top
  · rw [if_pos hd]
  · rw [if_neg hd, if_neg]
    rw [h]
    exact lt_irrefl 0

theorem calculateIou_self (a : Rect) (hinv : RectInv a)
    (hpos : 0 < a.width * a.height) : calculateIou a a = 1 := by
  obtain ⟨h1, h2, hw, hh⟩ := hinv
  simp only [calculateIou, max_self, min_self]
  rw [if_neg (by push_neg; exact ⟨h1, h2⟩)]
  have hE : (a.right - a.left) * (a.bottom - a.top) = a.width * a.height := by
    rw [hw, hh]
  rw [hE]
  have h3 : a.width * a.height + a.width * a.height - a.width * a.height =
      a.width * a.height := by ring
  rw [h3, if_pos hpos]
  exact div_self (ne_of_gt hpos)

/-- C5. For rectangles satisfying the `Rect` invariant, `calculateIou` is
symmetric, returns 0 when the rectangles do not intersect, returns 0 when the
union area is 0, and returns 1 on two identical rectangles of positive area.
(The positive-area proviso is the amendment: on a degenerate identical pair the
union area is 0 and the function returns 0, see the counterexample.) -/
theorem c5_iou_spec (a b : Rect) (ha : RectInv a) (hb : RectInv b) :
    calculateIou a b = calculateIou b a ∧
    (rectsDisjoint a b → calculateIou a b = 0) ∧
    (iouUnionArea a b = 0 → calculateIou a b = 0) ∧
    (a = b → 0 < a.width * a.height → calculateIou a b = 1) := by
  refine ⟨calculateIou_comm a b, calculateIou_of_disjoint a b,
    calculateIou_of_unionArea_eq_zero a b, ?_⟩
  rintro rfl hpos
  exact calculateIou_self a ha hpos

/-- C5 counterexample. The degenerate rectangle with `left = right` satisfies
the `Rect` invariant and is identical to itself, yet `calculateIou` returns 0,
not 1: the claim that identical rectangles always give 1 fails on the code. -/
theorem c5_counterexample :
    RectInv ⟨0, 0, 0, 1, 0, 1⟩ ∧
    calculateIou ⟨0, 0, 0, 1, 0, 1⟩ ⟨0, 0, 0, 1, 0, 1⟩ = 0 := by
  constructor
  · unfold RectInv; norm_num
  · unfold calculateIou; norm_num

/-- C5 witness: the theorem applied at a concrete pair of unit squares. -/
theorem c5_witness :
    calculateIou ⟨0, 0, 1, 1, 1, 1⟩ ⟨0, 0, 1, 1, 1, 1⟩ =
      calculateIou ⟨0, 0, 1, 1, 1, 1⟩ ⟨0, 0, 1, 1, 1, 1⟩ ∧
    calculateIou ⟨0, 0, 1, 1, 1, 1⟩ ⟨0, 0, 1, 1, 1, 1⟩ = 1 := by
  have h := c5_iou_spec ⟨0, 0, 1, 1, 1, 1⟩ ⟨0, 0, 1, 1, 1, 1⟩
    (by unfold RectInv; norm_num) (by unfold RectInv; norm_num)
  exact ⟨h.1, h.2.2.2 rfl (by norm_num)⟩


/-! ## Element filtering: `filterOverlappingElements` of
src/IndexTs/src/browser/utils.ts (lines 236-346)

The source sorts the input array in place by descending area (ties broken by
descending weight) and then runs two passes; the first pass (lines 254-303)
only fills a local variable that is discarded, so the returned value is
determined by the second pass (lines 311-342), which is what is embedded here.
The in-place sort is modelled by the stable `List.insertionSort`. -/

/-- Coordinates, as in `CoordinatesSchema` of src/IndexTs/src/browser/models.ts. -/
structure Coords where
  x : ℚ
  y : ℚ
  width : Option ℚ := none
  height : Option ℚ := none
deriving DecidableEq, Repr

/-- Interactive element, as in `InteractiveElementSchema` of
src/IndexTs/src/browser/models.ts, restricted to the fields read or written by
the embedded functions (`index`, `weight`, `rect`, `viewport`,
`browser_agent_id`); the remaining payload fields (tag name, text, attributes,
page and center coordinates, input type, z index) are carried by none of the
embedded computations and are omitted. -/
structure ElemTS where
  index : ℤ
  browser_agent_id : String
  weight : ℚ
  rect : Rect
  viewport : Coords
deriving DecidableEq, Repr

/-- Area of an element, the primary sort key of the filtering pass. -/
def areaTS (e : ElemTS) : ℚ := e.rect.width * e.rect.height

/-- The total preorder realised by the comparator
`(a, b) => areaB - areaA` with tie-break `b.weight - a.weight`
(descending area, then descending weight). -/
def prioR (a b : ElemTS) : Prop :=
  areaTS b < areaTS a ∨ (areaTS a = areaTS b ∧ b.weight ≤ a.weight)

instance : DecidableRel prioR := fun a b => by
  unfold prioR; infer_instance

instance : IsTotal ElemTS prioR := by
  constructor
  intro a b
  unfold prioR
  rcases lt_trichotomy (areaTS a) (areaTS b) with h | h | h
  · exact Or.inr (Or.inl h)
  · rcases le_total b.weight a.weight with hw | hw
    · exact Or.inl (Or.inr ⟨h, hw⟩)
    · exact Or.inr (Or.inr ⟨h.symm, hw⟩)
  · exact Or.inl (Or.inl h)

instance : IsTrans ElemTS prioR := by
  constructor
  intro a b c hab hbc
  unfold prioR at *
  rcases hab with h1 | ⟨h1, w1⟩
  · rcases hbc with h2 | ⟨h2, w2⟩
    · exact Or.inl (h2.trans h1)
    · exact Or.inl (h2 ▸ h1)
  · rcases hbc with h2 | ⟨h2, w2⟩
    · exact Or.inl (h1 ▸ h2)
    · exact Or.inr ⟨h1.trans h2, w2.trans w1⟩

/-- The inner comparison loop of the effective pass of
`filterOverlappingElements`: `current` is compared against the already kept
elements, iterated from the END of the kept list
(`for (let i = finalFiltered.length - 1; i >= 0; i--)`), so the input here is
the kept list reversed. Outcomes per kept element: high overlap or containment
of `current` discards `current` (`break`, leaving the not-yet-visited elements
untouched); a kept element contained in `current` is spliced out and the loop
continues; otherwise the element is kept and the loop continues. The first
component is `shouldAdd`; the second is the surviving kept list (reversed). -/
def filterScan (iouThreshold : ℚ) (current : ElemTS) : List ElemTS → Bool × List ElemTS
  | [] => (true, [])
  | existing :: rest =>
    if iouThreshold < calculateIou current.rect existing.rect ∨
        isFullyContained current.rect existing.rect = true then
      (false, existing :: rest)
    else if isFullyContained existing.rect current.rect = true then
      filterScan iouThreshold current rest
    else
      let r := filterScan iouThreshold current rest
      (r.1, existing :: r.2)

/-- One iteration of the `forEach` of the effective pass: run the comparison
loop and push `current` at the end of the kept list when it survives. -/
def filterAccept (iouThreshold : ℚ) (kept : List ElemTS) (current : ElemTS) : List ElemTS :=
  let r := filterScan iouThreshold current kept.reverse
  if r.1 then r.2.reverse ++ [current] else r.2.reverse

/-- `filterOverlappingElements` of src/IndexTs/src/browser/utils.ts: sort by
descending area then weight, then accept elements one by one against the kept
set. The early return on an empty input coincides with the fold on `[]`. -/
def filterOverlappingElements (elements : List ElemTS) (iouThreshold : ℚ := 7/10) :
    List ElemTS :=
  (List.insertionSort prioR elements).foldl (filterAccept iouThreshold) []


/-! ### Idempotence of the IndexTs filter -/

/-- The conditions under which `current` passes one kept element `e` in the
comparison loop without being discarded and without splicing `e`. -/
def survivesAgainst (iouThreshold : ℚ) (current e : ElemTS) : Prop :=
  ¬(iouThreshold < calculateIou current.rect e.rect ∨
      isFullyContained current.rect e.rect = true) ∧
  ¬(isFullyContained e.rect current.rect = true)

theorem filterScan_sublist (thr : ℚ) (cur : ElemTS) :
    ∀ rev : List ElemTS, (filterScan thr cur rev).2.Sublist rev := by
  intro rev
  induction rev with
  | nil => simp [filterScan]
  | cons existing rest ih =>
    rw [filterScan]
    split
    · exact List.Sublist.refl _
    · split
      · exact ih.trans (List.sublist_cons_self existing rest)
      · exact ih.cons_cons existing

theorem filterScan_true_mem (thr : ℚ) (cur : ElemTS) :
    ∀ rev : List ElemTS, (filterScan thr cur rev).1 = true →
      ∀ e ∈ (filterScan thr cur rev).2, survivesAgainst thr cur e := by
  intro rev
  induction rev with
  | nil => intro _ e he; simp [filterScan] at he
  | cons existing rest ih =>
    rw [filterScan]
    split
    · intro h; simp at h
    · next h1 =>
      split
      · exact ih
      · next h2 =>
        intro htrue e he
        rcases List.mem_cons.mp he with rfl | he2
        · exact ⟨h1, h2⟩
        · exact ih htrue e he2

theorem filterScan_of_survives (thr : ℚ) (cur : ElemTS) :
    ∀ rev : List ElemTS, (∀ e ∈ rev, survivesAgainst thr cur e) →
      filterScan thr cur rev = (true, rev) := by
  intro rev
  induction rev with
  | nil => intro _; rfl
  | cons existing rest ih =>
    intro h
    obtain ⟨h1, h2⟩ := h existing (List.mem_cons_self existing rest)
    rw [filterScan, if_neg h1, if_neg h2,
      ih (fun e he => h e (List.mem_cons_of_mem existing he))]

/-- Invariant of the kept list: every element survives against every earlier
kept element. -/
def keptInv (thr : ℚ) (l : List ElemTS) : Prop :=
  l.Pairwise (fun e c => survivesAgainst thr c e)

theorem filterAccept_surviving_sublist (thr : ℚ) (kept : List ElemTS) (cur : ElemTS) :
    ((filterScan thr cur kept.reverse).2.reverse).Sublist kept := by
  have h := (filterScan_sublist thr cur kept.reverse).reverse
  rwa [List.reverse_reverse] at h

theorem filterAccept_keptInv (thr : ℚ) (kept : List ElemTS) (cur : ElemTS)
    (hinv : keptInv thr kept) : keptInv thr (filterAccept thr kept cur) := by
  simp only [filterAccept]
  have hsub := filterAccept_surviving_sublist thr kept cur
  have hkeep : keptInv thr (filterScan thr cur kept.reverse).2.reverse :=
    hinv.sublist hsub
  split
  · next htrue =>
    unfold keptInv
    rw [List.pairwise_append]
    refine ⟨hkeep, List.pairwise_singleton _ _, ?_⟩
    intro e he c hc
    rw [List.mem_singleton] at hc
    cases hc
    exact filterScan_true_mem thr cur kept.reverse htrue e (List.mem_reverse.mp he)
  · exact hkeep

theorem filterAccept_sublist (thr : ℚ) (kept : List ElemTS) (cur : ElemTS) :
    (filterAccept thr kept cur).Sublist (kept ++ [cur]) := by
  simp only [filterAccept]
  have hsub := filterAccept_surviving_sublist thr kept cur
  split
  · exact hsub.append (List.Sublist.refl [cur])
  · exact hsub.trans (List.sublist_append_left kept [cur])

theorem foldl_filterAccept_keptInv (thr : ℚ) :
    ∀ (rest kept : List ElemTS), keptInv thr kept →
      keptInv thr (List.foldl (filterAccept thr) kept rest) := by
  intro rest
  induction rest with
  | nil => intro kept h; exact h
  | cons c rest ih =>
    intro kept h
    exact ih _ (filterAccept_keptInv thr kept c h)

theorem foldl_filterAccept_sublist (thr : ℚ) :
    ∀ (rest kept : List ElemTS),
      (List.foldl (filterAccept thr) kept rest).Sublist (kept ++ rest) := by
  intro rest
  induction rest with
  | nil => intro kept; simp
  | cons c rest ih =>
    intro kept
    refine (ih (filterAccept thr kept c)).trans ?_
    have h2 : (filterAccept thr kept c ++ rest).Sublist ((kept ++ [c]) ++ rest) :=
      (filterAccept_sublist thr kept c).append (List.Sublist.refl rest)
    simpa using h2

theorem foldl_filterAccept_id (thr : ℚ) :
    ∀ (rest kept : List ElemTS), keptInv thr (kept ++ rest) →
      List.foldl (filterAccept thr) kept rest = kept ++ rest := by
  intro rest
  induction rest with
  | nil => intro kept _; simp
  | cons c rest ih =>
    intro kept h
    have hc : ∀ e ∈ kept, survivesAgainst thr c e := by
      intro e he
      have := (List.pairwise_append.mp h).2.2 e he c (List.mem_cons_self c rest)
      exact this
    have hstep : filterAccept thr kept c = kept ++ [c] := by
      simp only [filterAccept]
      rw [filterScan_of_survives thr c kept.reverse
        (fun e he => hc e (List.mem_reverse.mp he))]
      simp
    rw [List.foldl_cons, hstep, ih (kept ++ [c]) (by simpa using h)]
    simp


/-! ## The part_002 variant of the geometry pipeline: src/unnamed/part_002

This drifted implementation of the same functions keeps rectangles as
`x`/`y`/`width`/`height` records, sorts copies of its input arrays, and in its
containment branch compares weights and z indices, splices with a `break`, and
writes the reassigned indices into the shared element objects in place. -/

/-- A rectangle in left/top/right/bottom form, as consumed by `calculateIOU`
of src/unnamed/part_002 (lines 47-71). -/
structure RectLTRB where
  left : ℚ
  top : ℚ
  right : ℚ
  bottom : ℚ
deriving DecidableEq, Repr

/-- `calculateIOU` of src/unnamed/part_002: the areas are recomputed from the
corner coordinates rather than read from width/height fields. -/
def calculateIOUP2 (rect1 rect2 : RectLTRB) : ℚ :=
  let intersectLeft := max rect1.left rect2.left
  let intersectTop := max rect1.top rect2.top
  let intersectRight := min rect1.right rect2.right
  let intersectBottom := min rect1.bottom rect2.bottom
  if intersectRight < intersectLeft ∨ intersectBottom < intersectTop then 0
  else
    let area1 := (rect1.right - rect1.left) * (rect1.bottom - rect1.top)
    let area2 := (rect2.right - rect2.left) * (rect2.bottom - rect2.top)
    let intersectionArea := (intersectRight - intersectLeft) * (intersectBottom - intersectTop)
    let unionArea := area1 + area2 - intersectionArea
    if 0 < unionArea then intersectionArea / unionArea else 0

/-- `isFullyContained` of src/unnamed/part_002 (lines 76-83). -/
def isFullyContainedP2 (rect1 rect2 : RectLTRB) : Bool :=
  decide (rect2.left ≤ rect1.left ∧ rect1.right ≤ rect2.right ∧
    rect2.top ≤ rect1.top ∧ rect1.bottom ≤ rect2.bottom)

/-- The `rect` record of a part_002 element (`x`, `y`, `width`, `height`). -/
structure RectXYWH where
  x : ℚ
  y : ℚ
  width : ℚ
  height : ℚ
deriving DecidableEq, Repr

/-- Interactive element of the part_002 variant, restricted to the fields its
functions read or write; `id` is a modelling device standing for the identity
of the JavaScript object, used to express the in-place index writes. -/
structure ElemP2 where
  id : ℕ
  index : ℤ
  weight : ℚ
  zIndex : ℤ
  rect : RectXYWH
deriving DecidableEq, Repr

/-- Conversion performed inline by `filterOverlappingElements` of part_002:
`left = x, top = y, right = x + width, bottom = y + height`. -/
def toLTRB (r : RectXYWH) : RectLTRB :=
  ⟨r.x, r.y, r.x + r.width, r.y + r.height⟩

def areaP2 (e : ElemP2) : ℚ := e.rect.width * e.rect.height

/-- The total preorder of the part_002 sort: descending area, then descending
weight (`[...elements].sort(...)`, a stable sort of a copy). -/
def prioRP2 (a b : ElemP2) : Prop :=
  areaP2 b < areaP2 a ∨ (areaP2 a = areaP2 b ∧ b.weight ≤ a.weight)

instance : DecidableRel prioRP2 := fun a b => by
  unfold prioRP2; infer_instance

/-- The inner loop of `filterOverlappingElements` of src/unnamed/part_002
(lines 122-156), iterating the kept list FORWARD from index 0. Per kept
element: high IoU discards `current` (`break`); if `current` is contained in
the kept element, a kept element of higher-or-equal weight and equal z index
discards `current` (`break`), otherwise a `current` of at least half the kept
area splices the kept element out and BREAKS (so later kept elements are never
compared against `current`), and a smaller `current` just moves on. -/
def filterScanP2 (iouThreshold : ℚ) (current : ElemP2) : List ElemP2 → Bool × List ElemP2
  | [] => (true, [])
  | existing :: rest =>
    if iouThreshold < calculateIOUP2 (toLTRB current.rect) (toLTRB existing.rect) then
      (false, existing :: rest)
    else if isFullyContainedP2 (toLTRB current.rect) (toLTRB existing.rect) = true then
      if current.weight ≤ existing.weight ∧ existing.zIndex = current.zIndex then
        (false, existing :: rest)
      else if areaP2 existing * (1/2) ≤ areaP2 current then
        (true, rest)
      else
        let r := filterScanP2 iouThreshold current rest
        (r.1, existing :: r.2)
    else
      let r := filterScanP2 iouThreshold current rest
      (r.1, existing :: r.2)

/-- One iteration of the outer `for (const current of sortedElements)` loop. -/
def filterAcceptP2 (iouThreshold : ℚ) (kept : List ElemP2) (current : ElemP2) : List ElemP2 :=
  let r := filterScanP2 iouThreshold current kept
  if r.1 then r.2 ++ [current] else r.2

/-- `filterOverlappingElements` of src/unnamed/part_002 (lines 88-164). -/
def filterOverlappingElementsP2 (elements : List ElemP2) (iouThreshold : ℚ := 7/10) :
    List ElemP2 :=
  (List.insertionSort prioRP2 elements).foldl (filterAcceptP2 iouThreshold) []

/-- The stable sort by ascending `rect.y` used to begin `sortElementsByPosition`
of part_002. -/
def yLEP2 (a b : ElemP2) : Prop := a.rect.y ≤ b.rect.y

instance : DecidableRel yLEP2 := fun a b => by
  unfold yLEP2; infer_instance

/-- The per-row stable sort by ascending `rect.x`. -/
def xLEP2 (a b : ElemP2) : Prop := a.rect.x ≤ b.rect.x

instance : DecidableRel xLEP2 := fun a b => by
  unfold xLEP2; infer_instance

/-- The row-grouping loop of `sortElementsByPosition` of src/unnamed/part_002
(lines 177-205): walk the y-sorted list, continue the current row while the
y distance to the row's LAST element is within `ROW_THRESHOLD = 20`, otherwise
close the row. -/
def groupRowsP2 : List ElemP2 → List ElemP2 → List (List ElemP2) → List (List ElemP2)
  | [], currentRow, rows => if currentRow.isEmpty then rows else rows ++ [currentRow]
  | e :: rest, currentRow, rows =>
    match currentRow.getLast? with
    | none => groupRowsP2 rest [e] rows
    | some lastE =>
      if |e.rect.y - lastE.rect.y| ≤ 20 then groupRowsP2 rest (currentRow ++ [e]) rows
      else groupRowsP2 rest [e] (rows ++ [currentRow])

/-- The index-writing loop `for i: sortedElements[i].index = i` of part_002
(lines 217-219), at the level of the resulting list value. The effect of the
same writes on aliases of the input arrays is expressed by `viewAfterP2`. -/
def assignIndicesP2 : List ElemP2 → ℕ → List ElemP2
  | [], _ => []
  | e :: rest, i => { e with index := (i : ℤ) } :: assignIndicesP2 rest (i + 1)

/-- `sortElementsByPosition` of src/unnamed/part_002 (lines 169-222): sort a
copy by y, group into rows, sort each row by x in place, flatten, write
indices. -/
def sortElementsByPositionP2 (elements : List ElemP2) : List ElemP2 :=
  let sortedByY := List.insertionSort yLEP2 elements
  let rows := groupRowsP2 sortedByY [] []
  let sortedRows := rows.map (List.insertionSort xLEP2)
  assignIndicesP2 sortedRows.flatten 0

/-- `combineAndFilterElements` of src/unnamed/part_002 (lines 227-242). -/
def combineAndFilterElementsP2 (browserElements cvElements : List ElemP2)
    (iouThreshold : ℚ := 7/10) : List ElemP2 :=
  sortElementsByPositionP2
    (filterOverlappingElementsP2 (browserElements ++ cvElements) iouThreshold)


/-! ## C6: idempotence of the overlap filter -/

/-- Concrete elements refuting idempotence of the part_002 filter: `exC` is
contained in `exE` with higher weight and at least half its area, so processing
`exC` splices `exE` out and BREAKS before ever comparing `exC` against `exF`,
leaving `exC` and `exF` with an IoU of 182/210 > 0.7 both in the output. -/
def exE : ElemP2 := ⟨0, 0, 1, 0, ⟨0, 0, 20, 19⟩⟩

def exF : ElemP2 := ⟨1, 1, 3, 0, ⟨7, 0, 14, 14⟩⟩

def exC : ElemP2 := ⟨2, 2, 2, 0, ⟨6, 0, 14, 14⟩⟩

/-- C6 counterexample. The part_002 `filterOverlappingElements` is not
idempotent: on `[exE, exF, exC]` the first application returns `[exF, exC]`
and the second application removes `exC`, so the second application does not
yield the same set. -/
theorem c6_counterexample :
    filterOverlappingElementsP2 (filterOverlappingElementsP2 [exE, exF, exC] (7/10)) (7/10) ≠
      filterOverlappingElementsP2 [exE, exF, exC] (7/10) := by
  have h1 : filterOverlappingElementsP2 [exE, exF, exC] (7/10) = [exF, exC] := by
    norm_num [filterOverlappingElementsP2, filterAcceptP2, filterScanP2, List.insertionSort,
      List.orderedInsert, prioRP2, areaP2, calculateIOUP2, isFullyContainedP2, toLTRB,
      exE, exF, exC]
  have h2 : filterOverlappingElementsP2 [exF, exC] (7/10) = [exF] := by
    norm_num [filterOverlappingElementsP2, filterAcceptP2, filterScanP2, List.insertionSort,
      List.orderedInsert, prioRP2, areaP2, calculateIOUP2, isFullyContainedP2, toLTRB,
      exF, exC]
  rw [h1, h2]
  intro h
  have := congrArg List.length h
  simp at this

/-- C6 (amended). The IndexTs `filterOverlappingElements` is idempotent:
applying it to its own output returns that output unchanged, for every input
list and threshold. (The part_002 variant is not idempotent, see the
counterexample: its containment splice breaks out of the comparison loop, so
an accepted element can overlap an element it was never compared against.) -/
theorem c6_filter_idempotent (l : List ElemTS) (thr : ℚ) :
    filterOverlappingElements (filterOverlappingElements l thr) thr =
      filterOverlappingElements l thr := by
  have hsub : (filterOverlappingElements l thr).Sublist (List.insertionSort prioR l) := by
    have h := foldl_filterAccept_sublist thr (List.insertionSort prioR l) []
    simpa [filterOverlappingElements] using h
  have hsorted : List.Sorted prioR (filterOverlappingElements l thr) :=
    List.Pairwise.sublist hsub (List.sorted_insertionSort prioR l)
  have hinv : keptInv thr (filterOverlappingElements l thr) :=
    foldl_filterAccept_keptInv thr (List.insertionSort prioR l) [] List.Pairwise.nil
  calc filterOverlappingElements (filterOverlappingElements l thr) thr
      = (List.insertionSort prioR (filterOverlappingElements l thr)).foldl
          (filterAccept thr) [] := rfl
    _ = (filterOverlappingElements l thr).foldl (filterAccept thr) [] := by
        rw [hsorted.insertionSort_eq]
    _ = [] ++ filterOverlappingElements l thr :=
        foldl_filterAccept_id thr (filterOverlappingElements l thr) []
          (by simpa using hinv)
    _ = filterOverlappingElements l thr := by simp


/-! ## Ordering and fusion: `sortElementsByPosition` and
`combineAndFilterElements` of src/IndexTs/src/browser/utils.ts (353-399) -/

/-- The nonpositivity predicate of the position comparator of
`sortElementsByPosition`: the comparator returns `a.top - b.top` when the
absolute vertical distance exceeds `ROW_THRESHOLD = 20`, and `a.left - b.left`
otherwise. -/
def posR (a b : ElemTS) : Prop :=
  (20 < |a.rect.top - b.rect.top| ∧ a.rect.top ≤ b.rect.top) ∨
  (¬(20 < |a.rect.top - b.rect.top|) ∧ a.rect.left ≤ b.rect.left)

instance : DecidableRel posR := fun a b => by
  unfold posR; infer_instance

/-- The index-reassigning `map((element, index) => ({...element, index}))` of
`sortElementsByPosition`: each element of the sorted list is a COPY carrying
its position as `index`. -/
def assignIndicesTS : List ElemTS → ℕ → List ElemTS
  | [], _ => []
  | e :: rest, i => { e with index := (i : ℤ) } :: assignIndicesTS rest (i + 1)

/-- `sortElementsByPosition` of src/IndexTs/src/browser/utils.ts: sort by the
position comparator, then reassign indices by position. The early return on an
empty list coincides with sorting and mapping the empty list. -/
def sortElementsByPosition (elements : List ElemTS) : List ElemTS :=
  assignIndicesTS (List.insertionSort posR elements) 0

/-- `combineAndFilterElements` of src/IndexTs/src/browser/utils.ts: concatenate
the DOM-derived and vision-derived lists, filter overlaps, order and reindex. -/
def combineAndFilterElements (browserElements cvElements : List ElemTS)
    (iouThreshold : ℚ := 7/10) : List ElemTS :=
  sortElementsByPosition
    (filterOverlappingElements (browserElements ++ cvElements) iouThreshold)

theorem assignIndicesTS_map_index :
    ∀ (l : List ElemTS) (i : ℕ),
      (assignIndicesTS l i).map (fun e => e.index) =
        (List.range' i l.length).map Int.ofNat
  | [], _ => rfl
  | e :: rest, i => by
    rw [assignIndicesTS, List.map_cons, List.length_cons, List.range'_succ, List.map_cons]
    exact congrArg _ (assignIndicesTS_map_index rest (i + 1))

theorem assignIndicesTS_length (l : List ElemTS) (i : ℕ) :
    (assignIndicesTS l i).length = l.length := by
  induction l generalizing i with
  | nil => rfl
  | cons e rest ih => simp [assignIndicesTS, ih]

theorem assignIndicesP2_map_index :
    ∀ (l : List ElemP2) (i : ℕ),
      (assignIndicesP2 l i).map (fun e => e.index) =
        (List.range' i l.length).map Int.ofNat
  | [], _ => rfl
  | e :: rest, i => by
    rw [assignIndicesP2, List.map_cons, List.length_cons, List.range'_succ, List.map_cons]
    exact congrArg _ (assignIndicesP2_map_index rest (i + 1))

theorem assignIndicesP2_length (l : List ElemP2) (i : ℕ) :
    (assignIndicesP2 l i).length = l.length := by
  induction l generalizing i with
  | nil => rfl
  | cons e rest ih => simp [assignIndicesP2, ih]

/-- C7. After fusion the `index` fields read off the returned list are exactly
the positions 0..n-1, with no gaps and no duplicates, for all inputs and for
both implementations (IndexTs `combineAndFilterElements` and the part_002
variant). -/
theorem c7_index_reassignment (dom cv : List ElemTS) (thr : ℚ)
    (domP cvP : List ElemP2) (thrP : ℚ) :
    (combineAndFilterElements dom cv thr).map (fun e => e.index) =
      (List.range (combineAndFilterElements dom cv thr).length).map Int.ofNat ∧
    (combineAndFilterElementsP2 domP cvP thrP).map (fun e => e.index) =
      (List.range (combineAndFilterElementsP2 domP cvP thrP).length).map Int.ofNat := by
  constructor
  · show (assignIndicesTS (List.insertionSort posR
        (filterOverlappingElements (dom ++ cv) thr)) 0).map (fun e => e.index) =
      (List.range (assignIndicesTS (List.insertionSort posR
        (filterOverlappingElements (dom ++ cv) thr)) 0).length).map Int.ofNat
    rw [assignIndicesTS_map_index, assignIndicesTS_length, List.range_eq_range']
  · show (assignIndicesP2 ((groupRowsP2 (List.insertionSort yLEP2
        (filterOverlappingElementsP2 (domP ++ cvP) thrP)) [] []).map
          (List.insertionSort xLEP2)).flatten 0).map (fun e => e.index) =
      (List.range (assignIndicesP2 ((groupRowsP2 (List.insertionSort yLEP2
        (filterOverlappingElementsP2 (domP ++ cvP) thrP)) [] []).map
          (List.insertionSort xLEP2)).flatten 0).length).map Int.ofNat
    rw [assignIndicesP2_map_index, assignIndicesP2_length, List.range_eq_range']


/-! ## C8: the frame effect of fusion on its input arrays

The IndexTs pipeline reassigns indices on object COPIES (`{...element, index}`),
so the input arrays and their element objects are untouched. The part_002
pipeline instead executes `sortedElements[i].index = i` on the element objects
themselves, which are shared with the input arrays; `viewAfterP2` expresses the
contents of an aliasing array after those writes. -/

/-- The final value written into the `index` field of the object `objId` by the
loop `for i: sortedElements[i].index = i` over `result` (the last write wins),
or `none` when the object does not occur in `result`. -/
def finalIndexOfP2 (result : List ElemP2) (objId : ℕ) : Option ℤ :=
  ((result.enum.filter (fun p => decide (p.2.id = objId))).getLast?).map
    (fun p => (p.1 : ℤ))

/-- The contents of an array aliasing the element objects of `arr` after the
part_002 index writes over `result` have executed. -/
def viewAfterP2 (result arr : List ElemP2) : List ElemP2 :=
  arr.map fun e =>
    match finalIndexOfP2 result e.id with
    | some i => { e with index := i }
    | none => e

/-- `combineAndFilterElements` of src/unnamed/part_002 together with the
post-call views of its two input arrays. -/
def combineAndFilterElementsP2Run (browserElements cvElements : List ElemP2)
    (iouThreshold : ℚ := 7/10) : List ElemP2 × List ElemP2 × List ElemP2 :=
  let res := combineAndFilterElementsP2 browserElements cvElements iouThreshold
  (res, viewAfterP2 res browserElements, viewAfterP2 res cvElements)

/-- An element with its `index` field blanked, for comparing all other fields. -/
def stripIndexP2 (e : ElemP2) : ElemP2 := { e with index := 0 }

theorem viewAfterP2_stripIndex (result : List ElemP2) :
    ∀ arr : List ElemP2,
      (viewAfterP2 result arr).map stripIndexP2 = arr.map stripIndexP2 := by
  intro arr
  induction arr with
  | nil => rfl
  | cons e rest ih =>
    simp only [viewAfterP2, List.map_cons] at *
    refine congrArg₂ _ ?_ ih
    cases finalIndexOfP2 result e.id <;> rfl

theorem viewAfterP2_length (result arr : List ElemP2) :
    (viewAfterP2 result arr).length = arr.length := by
  simp [viewAfterP2]

theorem viewAfterP2_not_in_result (result : List ElemP2) :
    ∀ arr : List ElemP2, (∀ e ∈ arr, finalIndexOfP2 result e.id = none) →
      viewAfterP2 result arr = arr := by
  intro arr h
  induction arr with
  | nil => rfl
  | cons e rest ih =>
    simp only [viewAfterP2, List.map_cons] at *
    rw [h e (List.mem_cons_self e rest)]
    exact congrArg _ (ih fun x hx => h x (List.mem_cons_of_mem e hx))

/-- C8 (amended). The fusion entry point leaves the input arrays with the same
elements in the same order, and in the part_002 variant the only field the
in-place index writes can change on a shared element object is `index`:
blanking `index` on both sides, the post-call views of the input arrays equal
the inputs, their lengths are unchanged, and an input element whose object does
not survive into the result is entirely unchanged. (The IndexTs variant
reassigns indices on copies, so there its inputs are untouched outright; the
claim that `index` is unchanged fails for part_002, see the counterexample.) -/
theorem c8_fusion_frame (dom cv : List ElemP2) (thr : ℚ) :
    ((combineAndFilterElementsP2Run dom cv thr).2.1).map stripIndexP2 =
        dom.map stripIndexP2 ∧
    ((combineAndFilterElementsP2Run dom cv thr).2.2).map stripIndexP2 =
        cv.map stripIndexP2 ∧
    ((combineAndFilterElementsP2Run dom cv thr).2.1).length = dom.length ∧
    ((combineAndFilterElementsP2Run dom cv thr).2.2).length = cv.length ∧
    ((∀ e ∈ dom, finalIndexOfP2 (combineAndFilterElementsP2Run dom cv thr).1 e.id = none) →
      (combineAndFilterElementsP2Run dom cv thr).2.1 = dom) := by
  refine ⟨viewAfterP2_stripIndex _ dom, viewAfterP2_stripIndex _ cv,
    viewAfterP2_length _ dom, viewAfterP2_length _ cv,
    viewAfterP2_not_in_result _ dom⟩

/-- C8 counterexample. Running the part_002 fusion on the one-element array
`[exMut]` (index 5) writes index 0 into the shared object, so after the call
the input array reads back with index 0: its element fields are NOT unchanged,
refuting the claim as stated. -/
theorem c8_counterexample :
    (combineAndFilterElementsP2Run [⟨0, 5, 1, 0, ⟨0, 0, 10, 10⟩⟩] [] (7/10)).2.1 ≠
      [⟨0, 5, 1, 0, ⟨0, 0, 10, 10⟩⟩] := by
  have h1 : combineAndFilterElementsP2 [⟨0, 5, 1, 0, ⟨0, 0, 10, 10⟩⟩] [] (7/10) =
      [⟨0, 0, 1, 0, ⟨0, 0, 10, 10⟩⟩] := by
    norm_num [combineAndFilterElementsP2, sortElementsByPositionP2,
      filterOverlappingElementsP2, filterAcceptP2, filterScanP2, List.insertionSort,
      List.orderedInsert, prioRP2, areaP2, groupRowsP2, assignIndicesP2]
  show viewAfterP2 (combineAndFilterElementsP2 _ _ _) _ ≠ _
  rw [h1]
  norm_num [viewAfterP2, finalIndexOfP2, List.enum, ElemP2.mk.injEq]

/-- C8 witness: the implication of the theorem discharged at a concrete input
whose element does not survive (the empty result case). -/
theorem c8_witness :
    (∀ e ∈ ([] : List ElemP2), finalIndexOfP2 (combineAndFilterElementsP2Run [] [] (7/10)).1 e.id = none) ∧
    (combineAndFilterElementsP2Run [] [] (7/10)).2.1 = [] :=
  ⟨fun e he => absurd he (List.not_mem_nil e),
    (c8_fusion_frame [] [] (7/10)).2.2.2.2 (fun e he => absurd he (List.not_mem_nil e))⟩


/-! ## Action dispatcher

Two controllers exist in the sources. The part_004 `Controller.executeAction`
(lines 78-138) catches everything and always returns an `ActionResult`; the
part_000 `Controller.executeAction` (lines 637-671) THROWS on an unknown action
name and rethrows handler failures wrapped in a new `Error`. A thrown exception
is modelled as `Except.error` carrying the error message. -/

/-- `ActionResult` (src/tsvariant/src/agent/models.ts; part_000 uses the same
shape with snake_case keys): `isDone` and `giveControl` default to false,
`content` and `error` are optional strings. -/
structure ActionResult where
  isDone : Bool := false
  content : Option String := none
  error : Option String := none
  giveControl : Bool := false
deriving DecidableEq, Repr

/-- `ActionModel`: the parsed LLM action. The parameter payload is abstract
(type `P`); the dispatcher only passes it through to the handler. -/
structure ActionModel (P : Type) where
  name : String
  params : P
deriving Repr

/-- The duck-typed value a part_004 handler may return (lines 107-127 of
part_004): a proper `ActionResult`, a bare string, some other truthy object
with optional result-shaped fields, or anything else (undefined, null, a
number, ...). -/
inductive HandlerValue where
  | actionResult (r : ActionResult)
  | str (s : String)
  | obj (isDone : Option Bool) (content : Option String) (error : Option String)
      (giveControl : Option Bool)
  | other
deriving Repr

/-- The keyword-argument object handed to a handler: the spread of
`action.params`, plus the browser handle when the action declared the
dependency. -/
structure Kwargs (P B : Type) where
  params : P
  browser : Option B

/-- A registered action of the part_004 controller: a handler may throw
(`Except.error`) and otherwise returns a duck-typed value. -/
structure ActionP4 (P B : Type) where
  name : String
  description : String
  func : Kwargs P B → Except String HandlerValue
  browserContext : Bool

/-- `Controller.executeAction` of src/unnamed/part_004 (lines 78-138): missing
handler yields an error result (not a throw); the handler runs inside
`try`/`catch`, its outcome is normalized by shape, and a thrown exception
becomes an error result. The return type `Except String ActionResult` makes a
would-be uncaught exception representable; this function never produces one. -/
def executeActionP4 {P B : Type} (actions : String → Option (ActionP4 P B))
    (action : ActionModel P) (browser : B) : Except String ActionResult :=
  match actions action.name with
  | none =>
    Except.ok { isDone := false,
                error := some ("Action " ++ action.name ++ " not found") }
  | some registeredAction =>
    let kwargs : Kwargs P B :=
      { params := action.params,
        browser := if registeredAction.browserContext then some browser else none }
    match registeredAction.func kwargs with
    | Except.error message =>
      Except.ok { isDone := false,
                  error := some ("Error executing action " ++ action.name ++ ": " ++ message) }
    | Except.ok (HandlerValue.actionResult r) => Except.ok r
    | Except.ok (HandlerValue.str s) => Except.ok { isDone := false, content := some s }
    | Except.ok (HandlerValue.obj d c e g) =>
      Except.ok { isDone := d.getD false, content := c, error := e,
                  giveControl := g.getD false }
    | Except.ok HandlerValue.other =>
      Except.ok { isDone := false, content := some "Action completed with no specific result" }

/-- A registered action of the part_000 controller: handlers are typed to
return an `ActionResult` (validated by `ActionResultSchema.parse`). -/
structure ActionP0 (P B : Type) where
  name : String
  description : String
  func : Kwargs P B → Except String ActionResult
  browserContext : Bool

/-- `Controller.executeAction` of src/unnamed/part_000 (lines 637-671): an
unknown action name THROWS `Action <name> not found`, and a handler failure is
rethrown as `Error executing action <name>: <message>`. -/
def executeActionP0 {P B : Type} (actions : String → Option (ActionP0 P B))
    (action : ActionModel P) (browser : Option B) : Except String ActionResult :=
  match actions action.name with
  | none => Except.error ("Action " ++ action.name ++ " not found")
  | some actionDef =>
    let kwargs : Kwargs P B :=
      { params := action.params,
        browser := if actionDef.browserContext then browser else none }
    match actionDef.func kwargs with
    | Except.error message =>
      Except.error ("Error executing action " ++ action.name ++ ": " ++ message)
    | Except.ok result => Except.ok result

/-- C1 (amended). The part_004 dispatcher never throws: for every registry,
action and browser it returns a plain `ActionResult`; an unregistered name
returns the error string `Action <name> not found`, and a throwing handler is
caught and converted to the error string
`Error executing action <name>: <message>`. (The part_000 dispatcher violates
the claim: it throws in both situations, see the counterexample.) -/
theorem c1_dispatcher_no_throw {P B : Type} (actions : String → Option (ActionP4 P B))
    (action : ActionModel P) (browser : B) :
    (∃ r : ActionResult, executeActionP4 actions action browser = Except.ok r) ∧
    (actions action.name = none →
      executeActionP4 actions action browser =
        Except.ok { isDone := false,
                    error := some ("Action " ++ action.name ++ " not found") }) ∧
    (∀ (registeredAction : ActionP4 P B) (message : String),
      actions action.name = some registeredAction →
      registeredAction.func
        { params := action.params,
          browser := if registeredAction.browserContext then some browser else none } =
        Except.error message →
      executeActionP4 actions action browser =
        Except.ok { isDone := false,
                    error := some ("Error executing action " ++ action.name ++ ": " ++ message) }) := by
  refine ⟨?_, ?_, ?_⟩
  · simp only [executeActionP4]
    split
    · exact ⟨_, rfl⟩
    · split <;> exact ⟨_, rfl⟩
  · intro h
    simp only [executeActionP4, h]
  · intro registeredAction message h hf
    simp only [executeActionP4, h, hf]

/-- C1 counterexample. The part_000 dispatcher, on a name with no registered
handler, throws (`Except.error`) instead of returning an `ActionResult`: the
universally stated claim that the dispatcher never throws fails on this
controller. -/
theorem c1_counterexample :
    executeActionP0 (P := Unit) (B := Unit) (fun _ => none) ⟨"foo", ()⟩ none =
      Except.error "Action foo not found" ∧
    ∀ r : ActionResult,
      executeActionP0 (P := Unit) (B := Unit) (fun _ => none) ⟨"foo", ()⟩ none ≠
        Except.ok r := by
  constructor
  · rfl
  · intro r h
    exact Except.noConfusion h

/-- C1 witness: the theorem applied to a one-action registry whose handler
throws, and to an unregistered name. -/
theorem c1_witness :
    executeActionP4 (P := Unit) (B := Unit)
        (fun n => if n = "boom" then
          some ⟨"boom", "throws", fun _ => Except.error "kaput", false⟩ else none)
        ⟨"boom", ()⟩ () =
      Except.ok { isDone := false, error := some "Error executing action boom: kaput" } ∧
    executeActionP4 (P := Unit) (B := Unit)
        (fun n => if n = "boom" then
          some ⟨"boom", "throws", fun _ => Except.error "kaput", false⟩ else none)
        ⟨"nope", ()⟩ () =
      Except.ok { isDone := false, error := some "Action nope not found" } := by
  constructor
  · exact (c1_dispatcher_no_throw (P := Unit) (B := Unit)
      (fun n => if n = "boom" then
        some ⟨"boom", "throws", fun _ => Except.error "kaput", false⟩ else none)
      ⟨"boom", ()⟩ ()).2.2
      ⟨"boom", "throws", fun _ => Except.error "kaput", false⟩ "kaput" rfl rfl
  · exact (c1_dispatcher_no_throw (P := Unit) (B := Unit)
      (fun n => if n = "boom" then
        some ⟨"boom", "throws", fun _ => Except.error "kaput", false⟩ else none)
      ⟨"nope", ()⟩ ()).2.1 rfl


/-! ## Conversation manager: src/tsvariant/src/agent/message_manager.ts

`Message` and the content block types follow src/tsvariant/src/llm/llm.ts:
a role string, an ordered list of text/image/thinking blocks, a state-message
flag, and an optional cache marker on text blocks (absent and `false` are
indistinguishable to every reader in the source, so the marker is a `Bool`). -/

inductive Content where
  | text (text : String) (cacheControl : Bool)
  | image (imageB64 : String)
  | thinking (thinking : String) (signature : String)
deriving DecidableEq, Repr

structure Message where
  role : String
  content : List Content
  isStateMessage : Bool := false
deriving DecidableEq, Repr

/-- The private `hasCacheControl` of `MessageManager` (lines 357-364): does any
TEXT block of the message carry the cache marker. -/
def hasCacheControl (m : Message) : Bool :=
  m.content.any fun c =>
    match c with
    | Content.text _ cc => cc
    | _ => false

/-- The private `removeCacheControl` of `MessageManager` (lines 370-376):
clear the marker on every text block. -/
def removeCacheControl (m : Message) : Message :=
  { m with
    content := m.content.map fun c =>
      match c with
      | Content.text t _ => Content.text t false
      | c => c }

/-- The loop body of `getMessages` (lines 320-342), processing the history from
its END (the input here is the reversed history): system messages are skipped
untouched; once a message with a marker has been seen (`found`), every earlier
message is cleared; the flag is tested on the message AFTER the optional
clearing, so the first marked message found from the end keeps its marker. -/
def getMessagesAux : Bool → List Message → List Message
  | _, [] => []
  | found, m :: rest =>
    if m.role = "system" then m :: getMessagesAux found rest
    else
      let m2 := if found then removeCacheControl m else m
      m2 :: getMessagesAux (found || hasCacheControl m2) rest

/-- `MessageManager.getMessages` of src/tsvariant/src/agent/message_manager.ts
(lines 320-342): clear every past cache marker except the latest one and return
the history (the source mutates `this._messages` in place and returns it; here
the returned list IS the new history). -/
def getMessages (messages : List Message) : List Message :=
  (getMessagesAux false messages.reverse).reverse

/-- `MessageManager.removeLastMessage` (lines 113-118): pop the last message
only when more than one message is present. -/
def removeLastMessage (messages : List Message) : List Message :=
  if 1 < messages.length then messages.dropLast else messages

/-- Tab descriptor (`TabInfo` of the browser models). -/
structure TabInfo where
  pageId : ℕ
  url : String
  title : String
deriving DecidableEq, Repr

/-- The two viewport fields read by `addCurrentStateMessage`; the remaining
viewport fields are read by no embedded function and are omitted. -/
structure ViewportM where
  scrollDistanceAboveViewport : ℕ
  scrollDistanceBelowViewport : ℕ
deriving DecidableEq, Repr

/-- The element fields read by the textual listing of
`addCurrentStateMessage`. -/
structure ElemM where
  index : ℤ
  browserAgentId : String
  tagName : String
  inputType : Option String
  text : String
deriving DecidableEq, Repr

/-- The browser-state fields read by the message manager.
`interactiveElements` is the `Object.values` of the index-keyed record, in
ascending key order. -/
structure BrowserStateM where
  url : String
  tabs : List TabInfo
  screenshot : Option String
  screenshotWithHighlights : Option String
  interactiveElements : List ElemM
  viewport : ViewportM
deriving DecidableEq, Repr

/-- JavaScript string truthiness for an optional string: `null`, `undefined`
and the empty string are falsy. -/
def strTruthy : Option String → Bool
  | none => false
  | some s => decide (s ≠ "")

/-- `String.prototype.replace` with a plain-string pattern replaces only the
FIRST occurrence (used on element texts with pattern a newline). -/
def replaceFirst (s pat repl : String) : String :=
  match s.splitOn pat with
  | [] => s
  | [_] => s
  | x :: rest => x ++ repl ++ String.intercalate pat rest

/-- The `highlightedElements` accumulation of `addCurrentStateMessage`
(lines 131-159): one `[index]<tag type="...">text</tag>` line per element,
sheet helper elements (`row_`/`column_` ids) excluded. -/
def highlightedElementsText (elements : List ElemM) : String :=
  elements.foldl
    (fun acc e =>
      if e.browserAgentId.startsWith "row_" || e.browserAgentId.startsWith "column_" then
        acc
      else
        let startTag := "[" ++ toString e.index ++ "]<" ++ e.tagName ++
          (match e.inputType with
           | some t => " type=\"" ++ t ++ "\""
           | none => "") ++ ">"
        acc ++ startTag ++ replaceFirst e.text "\n" " " ++ "</" ++ e.tagName ++ ">\n")
    ""

/-- The `elementsText` of `addCurrentStateMessage` (lines 161-179): scroll
extents around the element listing, with start/end-of-page markers. -/
def elementsTextOf (state : BrowserStateM) : String :=
  let highlighted := highlightedElementsText state.interactiveElements
  let above := state.viewport.scrollDistanceAboveViewport
  let below := state.viewport.scrollDistanceBelowViewport
  (if 0 < above then toString above ++ "px scroll distance above current viewport\n"
   else "[Start of page]\n") ++
  (if highlighted ≠ "" then "\nHighlighted elements:\n" ++ highlighted else "") ++
  (if 0 < below then "\n" ++ toString below ++ "px scroll distance below current viewport\n"
   else "\n[End of page]")

/-- The `previousActionOutput` prefix of `addCurrentStateMessage`
(lines 181-190). -/
def previousActionOutputText : Option ActionResult → String
  | none => ""
  | some r =>
    (if strTruthy r.content then
      "<previous_action_output>\n" ++ r.content.getD "" ++ "\n</previous_action_output>\n\n"
     else "") ++
    (if strTruthy r.error then
      "<previous_action_error>\n" ++ r.error.getD "" ++ "\n</previous_action_error>\n\n"
     else "")

/-- The state message built by `addCurrentStateMessage` (lines 126-229): the
state description text followed by the clean and highlighted screenshots, each
wrapped in tag text blocks. No block carries the cache marker, and the
`isStateMessage` flag is NOT set on this message. -/
def stateMessageOf (state : BrowserStateM) (previousResult : Option ActionResult)
    (userFollowUpMessage : Option String) : Message :=
  let tabsInfo := String.intercalate "\n"
    (state.tabs.map fun tab =>
      "Tab " ++ toString tab.pageId ++ ": " ++ tab.title ++ " (" ++ tab.url ++ ")")
  let userFollowUp :=
    if strTruthy userFollowUpMessage then
      "<user_follow_up_message>\n" ++ userFollowUpMessage.getD "" ++
        "\n</user_follow_up_message>\n\n"
    else ""
  let stateDescription :=
    previousActionOutputText previousResult ++ userFollowUp ++
    "\n<viewport>\nCurrent URL: " ++ state.url ++ "\n\nOpen tabs:\n" ++ tabsInfo ++
    "\n\nCurrent viewport information:\n" ++ elementsTextOf state ++ "\n</viewport>"
  { role := "user"
    content :=
      [Content.text stateDescription false,
       Content.text "<current_state_clean_screenshot>" false,
       Content.image (state.screenshot.getD ""),
       Content.text "</current_state_clean_screenshot>" false,
       Content.text "<current_state>" false,
       Content.image (state.screenshotWithHighlights.getD ""),
       Content.text "</current_state>" false] }

/-- `MessageManager.addCurrentStateMessage` (lines 126-229): push the state
message. -/
def addCurrentStateMessage (state : BrowserStateM) (previousResult : Option ActionResult)
    (userFollowUpMessage : Option String) (messages : List Message) : List Message :=
  messages ++ [stateMessageOf state previousResult userFollowUpMessage]


/-- The parsed LLM output (`AgentLLMOutput` of src/tsvariant/src/agent/models.ts)
as consumed by the message manager: thought, action name with its parameter
payload kept as its serialized form, optional summary, optional thinking
block. -/
structure AgentLLMOutputM where
  thought : String
  actionName : String
  actionParams : String
  summary : String
  thinkingBlock : Option (String × String) := none
deriving DecidableEq, Repr

/-- External JavaScript collaborators of the message manager, as oracles:
`scaleB64Image` (whose tsvariant source file is not in the repository snapshot)
and `JSON.stringify` of the model-output envelope (a runtime builtin). -/
structure JsOracle where
  scaleB64Image : String → ℚ → String
  stringifyOutput : AgentLLMOutputM → String

/-- `MessageManager.addSystemMessageAndUserPrompt` (lines 33-101): push the
system message (its single text block cache-marked) and the bootstrap user
message holding the few-shot example blocks, where the closing tag of the last
example is cache-marked, followed by the task text. `systemText` stands for
`systemMessage(actionDescriptions)` (prompts.ts is not in the repository
snapshot), `demo` for `loadDemoImageAsB64`, and `nowStr` for the formatted
`dayjs()` clock value. -/
def addSystemMessageAndUserPrompt (systemText : String) (demo : String → String)
    (nowStr : String) (prompt : String) (messages : List Message) : List Message :=
  messages ++
    [{ role := "system", content := [Content.text systemText true] },
     { role := "user"
       content :=
        [Content.text "<complex_layout_example>" false,
         Content.text "Here's an example of a complex layout. As an example, if you want to select a 'Roster' section for Colorado Rockies. Then you need to click on element with index 121." false,
         Content.image (demo "complex_layout_highlight.png"),
         Content.text "</complex_layout_example>" false,
         Content.text "<small_elements_example>" false,
         Content.text "Here's an example of small elements on the page and their functions. Element 7, represented by 'x' icon, is a 'clear text' button. Element 8 is a 'submit' button, represented by '=' icon. This clarification should help you better understand similar web pages." false,
         Content.image (demo "complex_layout_small_elements.png"),
         Content.text "</small_elements_example>" false,
         Content.text "<loading_pages_example>" false,
         Content.text "Here are some examples of loading pages. If the main content on the page is empty or if there are loading elements, such as skeleton screens, page is still loading. Then, you HAVE to perform `wait_for_page_to_load` action." false,
         Content.image (demo "loading.png"),
         Content.image (demo "loading2.png"),
         Content.text "</loading_pages_example>" false,
         Content.text "<scroll_over_element_example>" false,
         Content.text "In some cases, to reveal more content, you need to scroll in scrollable areas of the webpage. Scrollable areas have VERTICAL scrollbars very clearly visible on their right side. In the screenshot below, you can clearly see a scrollbar on the right side of the list of search items. This indicates that the list is scrollable. To scroll over this area, you need to identify any element within the scrollable area and use its index with `scroll_down_over_element` action to scroll over it. In this example, approriate element is with index 15." false,
         Content.image (demo "scroll.png"),
         Content.text "</scroll_over_element_example>" true,
         Content.text ("Here is the task you need to complete:\n\n<task>\n" ++ prompt ++
           "\n</task>\n\nToday's date and time is: " ++ nowStr ++
           " - keep this date and time in mind when planning your actions.") false] }]

/-- The retroactive compaction at the top of `addMessageFromModelOutput`
(lines 244-249): every state message with more than one content block is cut
down to its first block. -/
def compactStateMessages (messages : List Message) : List Message :=
  messages.map fun m =>
    if m.isStateMessage && decide (1 < m.content.length) then
      { m with content := m.content.take 1 }
    else m

/-- The retroactively added user state message of `addMessageFromModelOutput`
(lines 253-282): the previous action output (cache-marked), then the
scaled-down screenshot wrapped in `<state_N>` tags; `isStateMessage` is set. -/
def modelStateMessageOf (js : JsOracle) (step : ℤ) (previousResult : ActionResult)
    (screenshot : String) : Message :=
  let previousActionOutput :=
    (if strTruthy previousResult.content then
      "<action_output_" ++ toString (step - 1) ++ ">\n" ++ previousResult.content.getD "" ++
        "\n</action_output_" ++ toString (step - 1) ++ ">"
     else "") ++
    (if strTruthy previousResult.error then
      "<action_error_" ++ toString (step - 1) ++ ">\n" ++ previousResult.error.getD "" ++
        "\n</action_error_" ++ toString (step - 1) ++ ">"
     else "")
  { role := "user"
    content :=
      [Content.text previousActionOutput true,
       Content.text ("<state_" ++ toString step ++ ">") false,
       Content.image (js.scaleB64Image screenshot (3/4)),
       Content.text ("</state_" ++ toString step ++ ">") false]
    isStateMessage := true }

/-- `MessageManager.addMessageFromModelOutput` (lines 238-314): compact earlier
state messages, push the new state message when both a previous result and a
screenshot are present, then push the assistant message (optional thinking
block, then the serialized output wrapped in `<output_N>` tags). -/
def addMessageFromModelOutput (js : JsOracle) (step : ℤ)
    (previousResult : Option ActionResult) (modelOutput : AgentLLMOutputM)
    (screenshot : Option String) (messages : List Message) : List Message :=
  let compacted := compactStateMessages messages
  let withState :=
    match previousResult, screenshot with
    | some r, some s =>
      if s ≠ "" then compacted ++ [modelStateMessageOf js step r s] else compacted
    | _, _ => compacted
  let assistantContent :=
    (match modelOutput.thinkingBlock with
     | some (t, sig) => [Content.thinking t sig]
     | none => []) ++
    [Content.text ("<output_" ++ toString step ++ ">\n" ++ js.stringifyOutput modelOutput ++
      "\n</output_" ++ toString step ++ ">") false]
  withState ++ [{ role := "assistant", content := assistantContent }]

/-- Message-level embedding of `Agent.step` of src/tsvariant/src/agent/agent.ts
(lines 64-118): append the state message (only when a previous result exists),
run `getMessages` (which clears stale cache markers in place), then either the
LLM call and parse succeed (`llmOutcome`) - the just-added state message is
replaced through `removeLastMessage` and `addMessageFromModelOutput`, and the
action executes (`execOutcome`, whose failure pops the last message and
rethrows) - or they fail and the `catch` pops the last message and rethrows.
Returns the step outcome together with the final message history. -/
def stepRun (js : JsOracle) (messages : List Message) (step : ℤ)
    (previousResult : Option ActionResult) (state : BrowserStateM)
    (llmOutcome : Except String AgentLLMOutputM)
    (execOutcome : Except String ActionResult) :
    Except String (ActionResult × String) × List Message :=
  let msgs1 :=
    if previousResult.isSome then
      addCurrentStateMessage state previousResult none messages
    else messages
  let msgs2 := getMessages msgs1
  match llmOutcome with
  | Except.error e => (Except.error e, removeLastMessage msgs2)
  | Except.ok modelOutput =>
    let msgs3 := if previousResult.isSome then removeLastMessage msgs2 else msgs2
    let msgs4 := addMessageFromModelOutput js step previousResult modelOutput
      state.screenshot msgs3
    match execOutcome with
    | Except.error e => (Except.error e, removeLastMessage msgs4)
    | Except.ok result => (Except.ok (result, modelOutput.summary), msgs4)


/-! ### C4: rollback of the state message on a failed step -/

theorem getMessagesAux_length (found : Bool) :
    ∀ rev : List Message, (getMessagesAux found rev).length = rev.length := by
  intro rev
  induction rev generalizing found with
  | nil => rfl
  | cons m rest ih =>
    rw [getMessagesAux]
    split
    · simp [ih]
    · simp [ih]

theorem getMessages_length (messages : List Message) :
    (getMessages messages).length = messages.length := by
  simp [getMessages, getMessagesAux_length]

theorem hasCacheControl_stateMessageOf (state : BrowserStateM)
    (previousResult : Option ActionResult) (userFollowUpMessage : Option String) :
    hasCacheControl (stateMessageOf state previousResult userFollowUpMessage) = false := rfl

theorem getMessagesAux_false_cons_unmarked (m : Message) (rev : List Message)
    (h : hasCacheControl m = false) :
    getMessagesAux false (m :: rev) = m :: getMessagesAux false rev := by
  rw [getMessagesAux]
  split
  · rfl
  · simp [h]

theorem getMessages_append_unmarked (messages : List Message) (m : Message)
    (h : hasCacheControl m = false) :
    getMessages (messages ++ [m]) = getMessages messages ++ [m] := by
  unfold getMessages
  rw [List.reverse_append, List.reverse_singleton, List.singleton_append,
    getMessagesAux_false_cons_unmarked m messages.reverse h, List.reverse_cons]

/-- C4 (amended). In the tsvariant `Agent.step`, when a previous action result
exists (so a state message IS appended) and the history is nonempty, an LLM
call or parse failure pops exactly the appended state message and rethrows the
error: the resulting history is the pre-step history as rewritten by
`getMessages` - same messages, same order, same length, with only stale cache
markers cleared. (As stated the claim fails: on a step with no previous result
no state message is appended, yet the rollback still pops a message - see the
counterexample; and the history is not EXACTLY the pre-step one, since
`getMessages` has cleared stale cache markers in place.) -/
theorem c4_rollback (js : JsOracle) (messages : List Message) (step : ℤ)
    (r : ActionResult) (state : BrowserStateM) (e : String)
    (execOutcome : Except String ActionResult) (hne : messages ≠ []) :
    (stepRun js messages step (some r) state (Except.error e) execOutcome).2 =
      getMessages messages ∧
    (stepRun js messages step (some r) state (Except.error e) execOutcome).1 =
      Except.error e ∧
    (getMessages messages).length = messages.length := by
  refine ⟨?_, rfl, getMessages_length messages⟩
  show removeLastMessage (getMessages (addCurrentStateMessage state (some r) none messages)) = _
  unfold addCurrentStateMessage
  rw [getMessages_append_unmarked messages _ (hasCacheControl_stateMessageOf state (some r) none)]
  unfold removeLastMessage
  rw [if_pos, List.dropLast_concat]
  have hlen := getMessages_length messages
  have : 0 < messages.length := List.length_pos.mpr hne
  simp only [List.length_append, List.length_singleton, hlen]
  omega

/-- C4 witness: the amended theorem at a concrete two-message history. -/
theorem c4_witness :
    ([{ role := "system", content := [Content.text "sys" true] },
      { role := "user", content := [Content.text "task" false] }] : List Message) ≠ [] ∧
    (stepRun ⟨fun s _ => s, fun _ => ""⟩
        [{ role := "system", content := [Content.text "sys" true] },
         { role := "user", content := [Content.text "task" false] }]
        1 (some {}) ⟨"", [], none, none, [], ⟨0, 0⟩⟩ (Except.error "parse failure")
        (Except.ok {})).2 =
      getMessages
        [{ role := "system", content := [Content.text "sys" true] },
         { role := "user", content := [Content.text "task" false] }] := by
  constructor
  · intro h
    exact List.noConfusion h
  · exact (c4_rollback ⟨fun s _ => s, fun _ => ""⟩
      [{ role := "system", content := [Content.text "sys" true] },
       { role := "user", content := [Content.text "task" false] }]
      1 {} ⟨"", [], none, none, [], ⟨0, 0⟩⟩ "parse failure" (Except.ok {})
      (by intro h; exact List.noConfusion h)).1

/-- C4 counterexample. On the first step (`previousResult` null) no state
message is appended, yet an LLM failure still pops the last message: it removes
the bootstrap user message, so the history after the failed step is NOT what it
was before the step began. -/
theorem c4_counterexample :
    (stepRun ⟨fun s _ => s, fun _ => ""⟩
        [{ role := "system", content := [Content.text "sys" false] },
         { role := "user", content := [Content.text "task" false] }]
        0 none ⟨"", [], none, none, [], ⟨0, 0⟩⟩ (Except.error "parse failure")
        (Except.ok {})).1 = Except.error "parse failure" ∧
    (stepRun ⟨fun s _ => s, fun _ => ""⟩
        [{ role := "system", content := [Content.text "sys" false] },
         { role := "user", content := [Content.text "task" false] }]
        0 none ⟨"", [], none, none, [], ⟨0, 0⟩⟩ (Except.error "parse failure")
        (Except.ok {})).2 =
      [{ role := "system", content := [Content.text "sys" false] }] := by
  constructor
  · rfl
  · rfl


/-! ### C10: removeLastMessage guards the initial message -/

/-- C10. `removeLastMessage` removes a message only when the history holds more
than one: with zero or one messages the history is unchanged, with more the
LAST message is dropped, and in every case the FIRST message (the initial
system message of a bootstrapped history) survives. -/
theorem c10_removeLastMessage (messages : List Message) :
    (messages.length ≤ 1 → removeLastMessage messages = messages) ∧
    (1 < messages.length → removeLastMessage messages = messages.dropLast) ∧
    (removeLastMessage messages).head? = messages.head? := by
  refine ⟨?_, ?_, ?_⟩
  · intro h
    unfold removeLastMessage
    rw [if_neg (by omega)]
  · intro h
    unfold removeLastMessage
    rw [if_pos h]
  · unfold removeLastMessage
    split
    · next h =>
      match messages, h with
      | m :: m2 :: rest, _ => simp
    · rfl

/-- C10 witness: the theorem at concrete one- and two-message histories. -/
theorem c10_witness :
    removeLastMessage [{ role := "system", content := [] }] =
      [{ role := "system", content := [] }] ∧
    removeLastMessage
        [{ role := "system", content := [] }, { role := "user", content := [] }] =
      ([{ role := "system", content := [] }, { role := "user", content := [] }] :
        List Message).dropLast := by
  constructor
  · exact (c10_removeLastMessage [{ role := "system", content := [] }]).1 (by simp)
  · exact (c10_removeLastMessage
      [{ role := "system", content := [] }, { role := "user", content := [] }]).2.1 (by simp)


/-! ### C3: the cache-marker singleton after getMessages -/

/-- Does a content block carry the cache marker (text blocks only, as tested by
the manager). -/
def isMarkedBlock : Content → Bool
  | Content.text _ cc => cc
  | _ => false

/-- Number of marked blocks of one message. -/
def markedCount (m : Message) : ℕ := (m.content.filter isMarkedBlock).length

/-- A non-system message carrying a marker (system messages are skipped by
`getMessages` and excluded by the claim). -/
def markedMsg (m : Message) : Bool :=
  if m.role = "system" then false else hasCacheControl m

/-- Total number of marked blocks across the non-system messages of a
history. -/
def totalMarked (messages : List Message) : ℕ :=
  (messages.map fun m => if m.role = "system" then 0 else markedCount m).sum

/-- What `getMessagesAux` does to every message once the flag is set. -/
def clearNonSystem (m : Message) : Message :=
  if m.role = "system" then m else removeCacheControl m

theorem hasCacheControl_eq_any (m : Message) :
    hasCacheControl m = m.content.any isMarkedBlock := by
  unfold hasCacheControl isMarkedBlock
  rfl

theorem markedCount_removeCacheControl (m : Message) :
    markedCount (removeCacheControl m) = 0 := by
  unfold markedCount removeCacheControl
  simp only [List.length_eq_zero, List.filter_eq_nil_iff]
  intro c hc
  rw [List.mem_map] at hc
  obtain ⟨c0, _, rfl⟩ := hc
  cases c0 <;> simp [isMarkedBlock]

theorem markedCount_eq_zero_of_not_hasCacheControl (m : Message)
    (h : hasCacheControl m = false) : markedCount m = 0 := by
  rw [hasCacheControl_eq_any] at h
  unfold markedCount
  simp only [List.length_eq_zero, List.filter_eq_nil_iff]
  intro c hc
  rw [List.any_eq_false] at h
  exact h c hc

theorem totalMarked_cons (m : Message) (rest : List Message) :
    totalMarked (m :: rest) =
      (if m.role = "system" then 0 else markedCount m) + totalMarked rest := by
  unfold totalMarked
  rw [List.map_cons, List.sum_cons]

theorem totalMarked_reverse (messages : List Message) :
    totalMarked messages.reverse = totalMarked messages := by
  unfold totalMarked
  rw [List.map_reverse, List.sum_reverse]

theorem getMessagesAux_sys_cons (found : Bool) (m : Message) (rest : List Message)
    (hsys : m.role = "system") :
    getMessagesAux found (m :: rest) = m :: getMessagesAux found rest := by
  rw [getMessagesAux, if_pos hsys]

theorem getMessagesAux_false_cons (m : Message) (rest : List Message)
    (hsys : ¬m.role = "system") :
    getMessagesAux false (m :: rest) = m :: getMessagesAux (hasCacheControl m) rest := by
  rw [getMessagesAux, if_neg hsys]
  rfl

theorem getMessagesAux_true_cons (m : Message) (rest : List Message)
    (hsys : ¬m.role = "system") :
    getMessagesAux true (m :: rest) = removeCacheControl m :: getMessagesAux true rest := by
  rw [getMessagesAux, if_neg hsys]
  rfl

theorem getMessagesAux_true_eq_map (rev : List Message) :
    getMessagesAux true rev = rev.map clearNonSystem := by
  induction rev with
  | nil => rfl
  | cons m rest ih =>
    by_cases hsys : m.role = "system"
    · rw [getMessagesAux_sys_cons true m rest hsys, List.map_cons, ih, clearNonSystem,
        if_pos hsys]
    · rw [getMessagesAux_true_cons m rest hsys, List.map_cons, ih, clearNonSystem,
        if_neg hsys]

theorem perMessageMarked_clearNonSystem (m : Message) :
    (if (clearNonSystem m).role = "system" then 0 else markedCount (clearNonSystem m)) = 0 := by
  unfold clearNonSystem
  split
  · rfl
  · next h =>
    rw [show (removeCacheControl m).role = m.role from rfl, if_neg h]
    exact markedCount_removeCacheControl m

theorem totalMarked_map_clearNonSystem (rev : List Message) :
    totalMarked (rev.map clearNonSystem) = 0 := by
  induction rev with
  | nil => rfl
  | cons m rest ih =>
    rw [List.map_cons, totalMarked_cons, perMessageMarked_clearNonSystem, ih]

theorem totalMarked_getMessagesAux_false (rev : List Message)
    (h : ∀ m ∈ rev, markedCount m ≤ 1) :
    totalMarked (getMessagesAux false rev) ≤ 1 := by
  induction rev with
  | nil => exact Nat.zero_le 1
  | cons m rest ih =>
    by_cases hsys : m.role = "system"
    · rw [getMessagesAux_sys_cons false m rest hsys, totalMarked_cons, if_pos hsys,
        Nat.zero_add]
      exact ih fun x hx => h x (List.mem_cons_of_mem m hx)
    · rw [getMessagesAux_false_cons m rest hsys]
      cases hcc : hasCacheControl m with
      | true =>
        rw [totalMarked_cons, if_neg hsys, getMessagesAux_true_eq_map,
          totalMarked_map_clearNonSystem, Nat.add_zero]
        exact h m (List.mem_cons_self m rest)
      | false =>
        rw [totalMarked_cons, if_neg hsys,
          markedCount_eq_zero_of_not_hasCacheControl m hcc, Nat.zero_add]
        exact ih fun x hx => h x (List.mem_cons_of_mem m hx)

theorem find?_getMessagesAux_false (rev : List Message) :
    (getMessagesAux false rev).find? markedMsg = rev.find? markedMsg := by
  induction rev with
  | nil => rfl
  | cons m rest ih =>
    by_cases hsys : m.role = "system"
    · have hm : ¬markedMsg m = true := by rw [markedMsg, if_pos hsys]; exact Bool.false_ne_true
      rw [getMessagesAux_sys_cons false m rest hsys, List.find?_cons_of_neg _ hm,
        List.find?_cons_of_neg _ hm, ih]
    · rw [getMessagesAux_false_cons m rest hsys]
      cases hcc : hasCacheControl m with
      | true =>
        have hm : markedMsg m = true := by rw [markedMsg, if_neg hsys]; exact hcc
        rw [List.find?_cons_of_pos _ hm, List.find?_cons_of_pos _ hm]
      | false =>
        have hm : ¬markedMsg m = true := by
          rw [markedMsg, if_neg hsys, hcc]; exact Bool.false_ne_true
        rw [List.find?_cons_of_neg _ hm, List.find?_cons_of_neg _ hm, ih]

/-- C3. After `getMessages`, under the constructor invariant that each message
carries at most one marked block, the non-system messages of the returned
history hold at most one marked content block in total; the message found by
scanning from the end for a marker is EXACTLY the chronologically last marked
non-system message of the input, kept verbatim (so the surviving marker sits in
the last eligible message and every earlier occurrence has been cleared); and
the history length is unchanged. -/
theorem c3_cache_marker_singleton (messages : List Message)
    (h : ∀ m ∈ messages, markedCount m ≤ 1) :
    totalMarked (getMessages messages) ≤ 1 ∧
    (getMessages messages).reverse.find? markedMsg =
      messages.reverse.find? markedMsg ∧
    (getMessages messages).length = messages.length := by
  refine ⟨?_, ?_, getMessages_length messages⟩
  · rw [getMessages, totalMarked_reverse]
    exact totalMarked_getMessagesAux_false messages.reverse
      fun m hm => h m (List.mem_reverse.mp hm)
  · rw [getMessages, List.reverse_reverse]
    exact find?_getMessagesAux_false messages.reverse

/-- C3 witness: the theorem at a concrete five-message history holding three
marked blocks (system prompt, bootstrap user message, and two state messages of
which the last must keep its marker). -/
theorem c3_witness :
    (∀ m ∈ ([{ role := "system", content := [Content.text "sys" true] },
      { role := "user", content := [Content.text "task" true] },
      { role := "user", content := [Content.text "out0" true, Content.image "img1"],
        isStateMessage := true },
      { role := "assistant", content := [Content.text "thought" false] },
      { role := "user", content := [Content.text "out1" true, Content.image "img2"],
        isStateMessage := true }] : List Message), markedCount m ≤ 1) ∧
    totalMarked (getMessages
      [{ role := "system", content := [Content.text "sys" true] },
       { role := "user", content := [Content.text "task" true] },
       { role := "user", content := [Content.text "out0" true, Content.image "img1"],
         isStateMessage := true },
       { role := "assistant", content := [Content.text "thought" false] },
       { role := "user", content := [Content.text "out1" true, Content.image "img2"],
         isStateMessage := true }]) ≤ 1 := by
  constructor
  · decide
  · exact (c3_cache_marker_singleton _ (by decide)).1


/-! ## Streaming run: `Agent.runStream` of src/tsvariant/src/agent/agent.ts
(lines 337-487)

The generator is embedded as the full list of chunks an exhausting consumer
receives. Chunk payloads are restricted to the fields the verified properties
inspect (action result, summary, step count); the agent state, trace id, span
context, storage state and optional screenshot payloads are opaque to the
control flow and are omitted. One step of the loop is an oracle
`stepF : step number -> outcome`; a step's wall-clock duration enters through
`durationMs`, so that `Date.now() - startTime` equals the sum of the durations
of the steps run so far. Crucially, the `yield` of the terminal
`FinalOutputChunk` sits in a `finally` block, which JavaScript runs even on the
`return` of the timeout branch: the final chunk is yielded after a
`TimeoutChunk` as well. -/

inductive AgentStreamChunk where
  | step (actionResult : ActionResult) (summary : String)
  | stepTimeout (actionResult : ActionResult) (summary : String) (step : ℕ)
  | stepError (content : String)
  | finalOutput (result : Option ActionResult) (stepCount : ℕ)
deriving DecidableEq, Repr

/-- Outcome of one `this.step(...)` call: a result with its summary and
duration, or a thrown error (which the `catch` around the loop swallows). -/
inductive StepOutcome where
  | ok (result : ActionResult) (summary : String) (durationMs : ℕ)
  | err (message : String)

/-- The `while (!isDone && step < maxSteps)` loop of `runStream` together with
the `if (!isDone)` max-steps error after it. The fuel argument counts the
remaining iterations, `maxSteps - step`; exhausted fuel is exactly the loop
guard failing with `isDone` still false, which yields the max-steps
`StepChunkError`. A thrown step lands in the `catch` (no further loop chunks);
a step pushing the elapsed time beyond the timeout yields one `TimeoutChunk`
and returns; a done result yields its `StepChunk` and breaks. Returns the
yielded chunks with the final `result` and `step` values for the `finally`
block. -/
def runStreamLoop (stepF : ℕ → StepOutcome) (timeout : Option ℕ) (maxSteps : ℕ) :
    ℕ → ℕ → Option ActionResult → ℕ →
    List AgentStreamChunk × Option ActionResult × ℕ
  | 0, stepN, result, _ =>
    ([AgentStreamChunk.stepError ("Maximum number of steps reached: " ++ toString maxSteps)],
      result, stepN)
  | fuel + 1, stepN, result, elapsed =>
    match stepF stepN with
    | StepOutcome.err _ => ([], result, stepN)
    | StepOutcome.ok r s d =>
      let timedOut :=
        match timeout with
        | some t => decide (t < elapsed + d)
        | none => false
      if timedOut then
        ([AgentStreamChunk.stepTimeout r s (stepN + 1)], some r, stepN + 1)
      else if r.isDone then
        ([AgentStreamChunk.step r s], some r, stepN + 1)
      else
        let rest := runStreamLoop stepF timeout maxSteps fuel (stepN + 1) (some r) (elapsed + d)
        (AgentStreamChunk.step r s :: rest.1, rest.2)

/-- The chunk sequence of one `runStream` invocation: the loop chunks followed
by the terminal `FinalOutputChunk` that the `finally` block yields on EVERY
exit path, the timeout `return` included. -/
def runStreamChunks (stepF : ℕ → StepOutcome) (maxSteps : ℕ := 100)
    (prevStep : Option ℕ := none) (prevActionResult : Option ActionResult := none)
    (timeout : Option ℕ := none) : List AgentStreamChunk :=
  let step0 := prevStep.getD 0
  let r := runStreamLoop stepF timeout maxSteps (maxSteps - step0) step0 prevActionResult 0
  r.1 ++ [AgentStreamChunk.finalOutput r.2.1 r.2.2]

def isStepChunk : AgentStreamChunk → Bool
  | AgentStreamChunk.step _ _ => true
  | _ => false

def isTimeoutChunk : AgentStreamChunk → Bool
  | AgentStreamChunk.stepTimeout _ _ _ => true
  | _ => false

/-- Shape of the loop output: plain step chunks optionally closed by one
max-steps error chunk, or plain step chunks closed by one timeout chunk whose
result and step count are what the finally block reads. -/
theorem runStreamLoop_shape (stepF : ℕ → StepOutcome) (timeout : Option ℕ)
    (maxSteps : ℕ) :
    ∀ (fuel stepN : ℕ) (result : Option ActionResult) (elapsed : ℕ),
      (∀ c ∈ (runStreamLoop stepF timeout maxSteps fuel stepN result elapsed).1,
        isStepChunk c = true) ∨
      (∃ pre msg, (runStreamLoop stepF timeout maxSteps fuel stepN result elapsed).1 =
          pre ++ [AgentStreamChunk.stepError msg] ∧ ∀ c ∈ pre, isStepChunk c = true) ∨
      (∃ pre r s,
        (runStreamLoop stepF timeout maxSteps fuel stepN result elapsed).1 =
          pre ++ [AgentStreamChunk.stepTimeout r s
            (runStreamLoop stepF timeout maxSteps fuel stepN result elapsed).2.2] ∧
        (∀ c ∈ pre, isStepChunk c = true) ∧
        (runStreamLoop stepF timeout maxSteps fuel stepN result elapsed).2.1 = some r) := by
  intro fuel
  induction fuel with
  | zero =>
    intro stepN result elapsed
    exact Or.inr (Or.inl ⟨[], _, rfl, by intro c hc; cases hc⟩)
  | succ fuel ih =>
    intro stepN result elapsed
    rw [runStreamLoop]
    cases hstep : stepF stepN with
    | err msg =>
      exact Or.inl (by intro c hc; cases hc)
    | ok r s d =>
      simp only
      split
      · refine Or.inr (Or.inr ⟨[], r, s, rfl, ?_, rfl⟩)
        intro c hc
        cases hc
      · split
        · refine Or.inl ?_
          intro c hc
          rcases List.mem_cons.mp hc with rfl | hc2
          · rfl
          · cases hc2
        · rcases ih (stepN + 1) (some r) (elapsed + d) with h | ⟨pre, msg, heq, hpre⟩ |
            ⟨pre, r2, s2, heq, hpre, hres⟩
          · refine Or.inl ?_
            intro c hc
            rcases List.mem_cons.mp hc with rfl | hc2
            · rfl
            · exact h c hc2
          · refine Or.inr (Or.inl ⟨AgentStreamChunk.step r s :: pre, msg, ?_, ?_⟩)
            · simp only [List.cons_append, heq]
            · intro c hc
              rcases List.mem_cons.mp hc with rfl | hc2
              · rfl
              · exact hpre c hc2
          · refine Or.inr (Or.inr ⟨AgentStreamChunk.step r s :: pre, r2, s2, ?_, ?_, hres⟩)
            · simp only [List.cons_append, heq]
            · intro c hc
              rcases List.mem_cons.mp hc with rfl | hc2
              · rfl
              · exact hpre c hc2


theorem isTimeoutChunk_false_of_step (c : AgentStreamChunk)
    (h : isStepChunk c = true) : isTimeoutChunk c = false := by
  cases c <;> first | rfl | exact absurd h (by simp [isStepChunk])

/-- C2 (amended). In every streaming run whose chunk sequence contains a
TimeoutChunk, that TimeoutChunk is unique, everything before it is a plain
StepChunk (the loop stopped immediately), and it is followed by EXACTLY the
terminal FinalOutputChunk, carrying the timed-out result and step count. (As
stated the claim fails: a FinalOutputChunk IS yielded after the TimeoutChunk,
because the `finally` block runs on the timeout branch `return` too - see the
counterexample.) -/
theorem c2_timeout_stream (stepF : ℕ → StepOutcome) (maxSteps : ℕ)
    (prevStep : Option ℕ) (prevRes : Option ActionResult) (timeout : Option ℕ)
    (h : ∃ c ∈ runStreamChunks stepF maxSteps prevStep prevRes timeout,
      isTimeoutChunk c = true) :
    ∃ pre r s n,
      runStreamChunks stepF maxSteps prevStep prevRes timeout =
        pre ++ [AgentStreamChunk.stepTimeout r s n,
          AgentStreamChunk.finalOutput (some r) n] ∧
      (∀ c ∈ pre, isStepChunk c = true) ∧
      ((runStreamChunks stepF maxSteps prevStep prevRes timeout).filter
        isTimeoutChunk).length = 1 := by
  simp only [runStreamChunks] at h ⊢
  rcases runStreamLoop_shape stepF timeout maxSteps (maxSteps - prevStep.getD 0)
      (prevStep.getD 0) prevRes 0 with hall | ⟨pre, msg, heq, hpre⟩ |
      ⟨pre, r, s, heq, hpre, hres⟩
  · exfalso
    obtain ⟨c, hc, ht⟩ := h
    rcases List.mem_append.mp hc with hc1 | hc2
    · rw [isTimeoutChunk_false_of_step c (hall c hc1)] at ht
      exact Bool.false_ne_true ht
    · rw [List.mem_singleton] at hc2
      subst hc2
      exact Bool.false_ne_true ht
  · exfalso
    obtain ⟨c, hc, ht⟩ := h
    rw [heq] at hc
    rcases List.mem_append.mp hc with hc1 | hc2
    · rcases List.mem_append.mp hc1 with hc3 | hc4
      · rw [isTimeoutChunk_false_of_step c (hpre c hc3)] at ht
        exact Bool.false_ne_true ht
      · rw [List.mem_singleton] at hc4
        subst hc4
        exact Bool.false_ne_true ht
    · rw [List.mem_singleton] at hc2
      subst hc2
      exact Bool.false_ne_true ht
  · refine ⟨pre, r, s,
      (runStreamLoop stepF timeout maxSteps (maxSteps - prevStep.getD 0)
        (prevStep.getD 0) prevRes 0).2.2, ?_, hpre, ?_⟩
    · rw [heq, hres, List.append_assoc]
      rfl
    · rw [heq, hres]
      have hnil : pre.filter isTimeoutChunk = [] :=
        List.filter_eq_nil_iff.mpr fun c hc => by
          rw [isTimeoutChunk_false_of_step c (hpre c hc)]
          exact Bool.false_ne_true
      rw [List.append_assoc, List.filter_append, hnil]
      rfl

/-- The step oracle of the C2 counterexample and witness: every step succeeds
with a not-done result, a fixed summary and a duration of 20 ms. -/
def exStepF : ℕ → StepOutcome := fun _ => StepOutcome.ok {} "s" 20

/-- C2 counterexample. A streaming run with a 10 ms timeout and a 20 ms step:
the run yields the TimeoutChunk and THEN a FinalOutputChunk in the same
invocation, contradicting the claim that no FinalOutputChunk follows. -/
theorem c2_counterexample :
    runStreamChunks exStepF 100 none none (some 10) =
      [AgentStreamChunk.stepTimeout {} "s" 1,
       AgentStreamChunk.finalOutput (some {}) 1] := by
  rfl

/-- C2 witness: the amended theorem applied to the concrete timed-out run. -/
theorem c2_witness :
    (∃ c ∈ runStreamChunks exStepF 100 none none (some 10), isTimeoutChunk c = true) ∧
    ∃ pre r s n,
      runStreamChunks exStepF 100 none none (some 10) =
        pre ++ [AgentStreamChunk.stepTimeout r s n,
          AgentStreamChunk.finalOutput (some r) n] ∧
      (∀ c ∈ pre, isStepChunk c = true) ∧
      ((runStreamChunks exStepF 100 none none (some 10)).filter
        isTimeoutChunk).length = 1 :=
  ⟨⟨AgentStreamChunk.stepTimeout {} "s" 1, by exact ⟨List.mem_cons_self _ _, rfl⟩⟩,
    c2_timeout_stream exStepF 100 none none (some 10)
      ⟨AgentStreamChunk.stepTimeout {} "s" 1, by exact ⟨List.mem_cons_self _ _, rfl⟩⟩⟩


/-! ## Image utilities at the snapshotter boundary:
`putHighlightElementsOnScreenshot` and `scaleB64Image` of
src/IndexTs/src/browser/utils.ts (lines 37-195)

The sharp image library is the external collaborator here; its three calls
(metadata probe, composite-to-png, resize-to-png) enter as oracles that either
return a value or fail (a rejected promise). Everything else - the overlay
geometry, label collision avoidance and bounds clamping - is pure computation
embedded below. Both source functions wrap their whole body in `try`/`catch`
and return the input string on any failure. -/

structure ColorRGB where
  r : ℕ
  g : ℕ
  b : ℕ
deriving DecidableEq, Repr

/-- The rotating highlight palette (lines 7-20). -/
def colors : List ColorRGB :=
  [⟨204, 0, 0⟩, ⟨0, 136, 0⟩, ⟨0, 0, 204⟩, ⟨204, 112, 0⟩, ⟨102, 0, 102⟩, ⟨0, 102, 102⟩,
   ⟨204, 51, 153⟩, ⟨44, 0, 102⟩, ⟨204, 35, 0⟩, ⟨28, 102, 66⟩, ⟨170, 0, 0⟩, ⟨36, 82, 123⟩]

/-- The two SVG overlays built per element: the bounding-box border and the
index label. -/
inductive SvgOverlay where
  | border (width height : ℤ) (color : ColorRGB)
  | label (width height : ℤ) (color : ColorRGB) (text : String)
deriving DecidableEq, Repr

structure CompositeOp where
  input : SvgOverlay
  left : ℤ
  top : ℤ
deriving DecidableEq, Repr

structure PlacedLabel where
  left : ℤ
  top : ℤ
  right : ℤ
  bottom : ℤ
deriving DecidableEq, Repr

/-- The label overlap test of lines 114-117. -/
def labelOverlaps (cur ex : PlacedLabel) : Bool :=
  !(decide (cur.right < ex.left) || decide (ex.right < cur.left) ||
    decide (cur.bottom < ex.top) || decide (ex.bottom < cur.top))

/-- The collision-avoidance loop of lines 113-129: walk the already placed
labels; on overlap shift the label below the colliding one (bottom + 2) and
keep walking with the shifted rectangle. -/
def adjustLabelY (labelX labelWidth labelHeight : ℤ) : ℤ → List PlacedLabel → ℤ
  | labelY, [] => labelY
  | labelY, ex :: rest =>
    if labelOverlaps ⟨labelX, labelY, labelX + labelWidth, labelY + labelHeight⟩ ex then
      adjustLabelY labelX labelWidth labelHeight (ex.bottom + 2) rest
    else
      adjustLabelY labelX labelWidth labelHeight labelY rest

/-- One iteration of the per-element loop of
`putHighlightElementsOnScreenshot` (lines 51-154): skip sheet helper elements;
push the border overlay; estimate the label box (font size 14, padding 3,
0.6 em per character); place it at the top-right inside (or beside) the
element; dodge previously placed labels; clamp into the image bounds; record
the label and push its overlay. -/
def highlightStep (imageWidth imageHeight : ℤ)
    (state : List CompositeOp × List PlacedLabel) (entry : ℕ × ElemTS) :
    List CompositeOp × List PlacedLabel :=
  let index := entry.1
  let element := entry.2
  if element.browser_agent_id.startsWith "row_" ||
      element.browser_agent_id.startsWith "column_" then state
  else
    let color := colors.getD (index % colors.length) ⟨0, 0, 0⟩
    let rect := element.viewport
    let rectWidth := max 1 (round (rect.width.getD 1))
    let rectHeight := max 1 (round (rect.height.getD 1))
    let rectX := round rect.x
    let rectY := round rect.y
    let ops1 := state.1 ++ [⟨SvgOverlay.border rectWidth rectHeight color, rectX, rectY⟩]
    let text := toString index
    let textWidth : ℚ := (text.length : ℚ) * (14 * (3/5))
    let labelWidth := round (textWidth + 3 * 2)
    let labelHeight := round ((14 : ℚ) + 3 * 2)
    let labelX :=
      if rectWidth < labelWidth ∨ rectHeight < labelHeight then rectX + rectWidth
      else rectX + rectWidth - labelWidth
    let labelY0 := rectY
    let labelY1 := adjustLabelY labelX labelWidth labelHeight labelY0 state.2
    let labelX1 := if labelX < 0 then 0 else labelX
    let labelX2 := if imageWidth ≤ labelX1 + labelWidth then imageWidth - labelWidth - 1
      else labelX1
    let labelY2 := if labelY1 < 0 then 0 else labelY1
    let labelY3 := if imageHeight ≤ labelY2 + labelHeight then imageHeight - labelHeight - 1
      else labelY2
    (ops1 ++ [⟨SvgOverlay.label labelWidth labelHeight color text, labelX2, labelY3⟩],
     state.2 ++ [⟨labelX2, labelY3, labelX2 + labelWidth, labelY3 + labelHeight⟩])

/-- The image metadata sharp reports: dimensions may be unknown. -/
structure ImageMeta where
  width : Option ℤ := none
  height : Option ℤ := none
deriving DecidableEq, Repr

/-- The sharp library boundary: each call either returns or fails. -/
structure SharpOps where
  metadata : String → Except String ImageMeta
  compositeToPngB64 : String → List CompositeOp → Except String String
  resizeToPngB64 : String → ℤ → ℤ → Except String String

/-- `putHighlightElementsOnScreenshot` of src/IndexTs/src/browser/utils.ts
(lines 37-164): probe the metadata (unknown dimensions default to 0), build the
overlay list, composite; on ANY failure return the original screenshot. The
elements arrive as the record's entries in ascending numeric key order. -/
def putHighlightElementsOnScreenshot (sharp : SharpOps) (elements : List (ℕ × ElemTS))
    (screenshotB64 : String) : String :=
  match sharp.metadata screenshotB64 with
  | Except.error _ => screenshotB64
  | Except.ok meta =>
    let imageWidth := meta.width.getD 0
    let imageHeight := meta.height.getD 0
    let ops := (elements.foldl (highlightStep imageWidth imageHeight) ([], [])).1
    match sharp.compositeToPngB64 screenshotB64 ops with
    | Except.error _ => screenshotB64
    | Except.ok out => out

/-- `scaleB64Image` of src/IndexTs/src/browser/utils.ts (lines 172-195): return
the input unchanged when a dimension is unknown (or 0, which is falsy in the
source test) and on any failure, otherwise resize to the rounded scaled
dimensions. -/
def scaleB64Image (sharp : SharpOps) (imageB64 : String) (scaleFactor : ℚ) : String :=
  match sharp.metadata imageB64 with
  | Except.error _ => imageB64
  | Except.ok meta =>
    match meta.width, meta.height with
    | some w, some h =>
      if w = 0 ∨ h = 0 then imageB64
      else
        let newWidth := round ((w : ℚ) * scaleFactor)
        let newHeight := round ((h : ℚ) * scaleFactor)
        match sharp.resizeToPngB64 imageB64 newWidth newHeight with
        | Except.error _ => imageB64
        | Except.ok out => out
    | _, _ => imageB64

/-- C9. The image utilities are total and never throw across the snapshotter
boundary: `putHighlightElementsOnScreenshot` returns the metadata or composite
failure cases to the original screenshot unchanged (and otherwise the composite
output), and `scaleB64Image` returns its input unchanged when the metadata call
fails, when either dimension is unknown or zero, or when the resize fails. -/
theorem c9_image_utils_safe (sharp : SharpOps) (elements : List (ℕ × ElemTS))
    (b64 : String) (sf : ℚ) :
    (∀ e, sharp.metadata b64 = Except.error e →
      putHighlightElementsOnScreenshot sharp elements b64 = b64) ∧
    (∀ meta e, sharp.metadata b64 = Except.ok meta →
      sharp.compositeToPngB64 b64
        ((elements.foldl
          (highlightStep (meta.width.getD 0) (meta.height.getD 0)) ([], [])).1) =
        Except.error e →
      putHighlightElementsOnScreenshot sharp elements b64 = b64) ∧
    (∀ meta out, sharp.metadata b64 = Except.ok meta →
      sharp.compositeToPngB64 b64
        ((elements.foldl
          (highlightStep (meta.width.getD 0) (meta.height.getD 0)) ([], [])).1) =
        Except.ok out →
      putHighlightElementsOnScreenshot sharp elements b64 = out) ∧
    (∀ e, sharp.metadata b64 = Except.error e → scaleB64Image sharp b64 sf = b64) ∧
    (∀ meta, sharp.metadata b64 = Except.ok meta →
      meta.width = none ∨ meta.height = none ∨ meta.width = some 0 ∨ meta.height = some 0 →
      scaleB64Image sharp b64 sf = b64) ∧
    (∀ meta w h e, sharp.metadata b64 = Except.ok meta → meta.width = some w →
      meta.height = some h → ¬w = 0 → ¬h = 0 →
      sharp.resizeToPngB64 b64 (round ((w : ℚ) * sf)) (round ((h : ℚ) * sf)) =
        Except.error e →
      scaleB64Image sharp b64 sf = b64) := by
  refine ⟨?_, ?_, ?_, ?_, ?_, ?_⟩
  · intro e h
    simp only [putHighlightElementsOnScreenshot, h]
  · intro meta e h hc
    simp only [putHighlightElementsOnScreenshot, h, hc]
  · intro meta out h hc
    simp only [putHighlightElementsOnScreenshot, h, hc]
  · intro e h
    simp only [scaleB64Image, h]
  · intro meta h hdim
    simp only [scaleB64Image, h]
    rcases hdim with hw | hh | hw | hh
    · rw [hw]
    · rw [hh]
      cases meta.width <;> rfl
    · rw [hw]
      cases hh : meta.height with
      | none => rfl
      | some hv => simp
    · rw [hh]
      cases hw2 : meta.width with
      | none => rfl
      | some wv => simp
  · intro meta w h e hm hw hh hw0 hh0 hr
    simp only [scaleB64Image, hm, hw, hh]
    rw [if_neg (by push_neg; exact ⟨hw0, hh0⟩), hr]

/-- C9 witness: the theorem applied to a concrete failing metadata oracle and
to a concrete oracle reporting unknown dimensions. -/
theorem c9_witness :
    ((⟨fun _ => Except.error "decode failure", fun _ _ => Except.error "x",
        fun _ _ _ => Except.error "x"⟩ : SharpOps).metadata "shot" =
      Except.error "decode failure") ∧
    putHighlightElementsOnScreenshot
      ⟨fun _ => Except.error "decode failure", fun _ _ => Except.error "x",
        fun _ _ _ => Except.error "x"⟩ [] "shot" = "shot" ∧
    scaleB64Image
      ⟨fun _ => Except.ok { width := none, height := some 5 },
        fun _ _ => Except.error "x", fun _ _ _ => Except.error "x"⟩ "img" (3/4) = "img" := by
  refine ⟨rfl, ?_, ?_⟩
  · exact (c9_image_utils_safe
      ⟨fun _ => Except.error "decode failure", fun _ _ => Except.error "x",
        fun _ _ _ => Except.error "x"⟩ [] "shot" 1).1 "decode failure" rfl
  · exact (c9_image_utils_safe
      ⟨fun _ => Except.ok { width := none, height := some 5 },
        fun _ _ => Except.error "x", fun _ _ _ => Except.error "x"⟩ [] "img" (3/4)).2.2.2.2.1
      { width := none, height := some 5 } rfl (Or.inl rfl)

end IndexAgent
